import Mathlib

/-!
Verification of the object-storage contract (`IObjectStorage.h`): a shallow
embedding of the data model and the operations of the interface, together with
theorems checking the specification's claims against it.

The repository sources contain only the interface header
`src/Disks/ObjectStorages/IObjectStorage.h`; the semantics of the pure virtual
operations and of the out-of-line default implementations are modelled from the
specification where noted.
-/

namespace DB

/-- Byte sequences exchanged with a backend; each element is one byte value. -/
abbrev ByteSeq := List Nat

/-- Modelled from the spec: `StoredObject` (its header
`Disks/ObjectStorages/StoredObject.h` is not among the sources) identifies one
physical blob by a relative path plus an optional known byte size. -/
structure StoredObject where
  relative_path : String
  bytes_size : Option Nat
  deriving DecidableEq, Repr

/-- Ordered sequence of stored objects making up one logical file. -/
abbrev StoredObjects := List StoredObject

/-- `using ObjectAttributes = std::map<std::string, std::string>` from the header. -/
abbrev ObjectAttributes := List (String × String)

/-- `struct RelativePathWithSize` from the header: a relative path with its size. -/
structure RelativePathWithSize where
  relative_path : String
  bytes_size : Nat
  deriving DecidableEq, Repr

/-- `using RelativePathsWithSize = std::vector<RelativePathWithSize>`. -/
abbrev RelativePathsWithSize := List RelativePathWithSize

/-- `struct ObjectMetadata` from the header. -/
structure ObjectMetadata where
  size_bytes : Nat
  last_modified : Option Nat
  attributes : Option ObjectAttributes
  deriving DecidableEq, Repr

/-- Modelled from the spec: `WriteMode` (its header `Disks/WriteMode.h` is not
among the sources) is the enum \x7bRewrite, Append\x7d. -/
inductive WriteMode where
  | Rewrite
  | Append
  deriving DecidableEq, Repr

/-- Modelled from the spec: the error taxonomy of §7 (NotFound,
BackendUnavailable, InvalidArgument, PartialBatchFailure carrying the failed
members, Aborted). -/
inductive Err where
  | NotFound
  | BackendUnavailable
  | InvalidArgument
  | PartialBatchFailure (failed : List String)
  | Aborted
  deriving DecidableEq, Repr

/-- Modelled from the spec: `ReadSettings` (header `IO/ReadSettings.h` is not
among the sources) is an opaque configuration bundle; the recognized options
named by the spec are a throttler selection, a buffer size hint and a
local-cache participation flag. -/
structure ReadSettings where
  remote_throttler : Option Nat
  buffer_size : Nat
  enable_filesystem_cache : Bool
  deriving DecidableEq, Repr

/-- Modelled from the spec: `WriteSettings` (header `IO/WriteSettings.h` is not
among the sources) is an opaque configuration bundle with a throttler selection
and a buffer size hint. -/
structure WriteSettings where
  remote_throttler : Option Nat
  buffer_size : Nat
  deriving DecidableEq, Repr

/-- Modelled from the spec: the observable state of one backend instance, the
named blobs it holds (glossary: a blob is an opaque named byte sequence). -/
structure Store where
  entries : List (String × ByteSeq)
  deriving DecidableEq, Repr

/-- Content of the blob named `p`, if present. -/
def Store.lookup (st : Store) (p : String) : Option ByteSeq :=
  List.lookup p st.entries

/-- Remove every entry named `p` from the backend state. -/
def Store.erase (st : Store) (p : String) : Store :=
  ⟨st.entries.filter (fun kv => kv.1 != p)⟩

/-- Replace (or create) the blob named `p` with content `d`. -/
def Store.write (st : Store) (p : String) (d : ByteSeq) : Store :=
  ⟨(p, d) :: (Store.erase st p).entries⟩

/-- Modelled from the spec: `exists(object) -> bool`, an authoritative backend
check (the header's `exists` is pure virtual). -/
def objectExists (st : Store) (object : StoredObject) : Bool :=
  (Store.lookup st object.relative_path).isSome

/-- Modelled from the spec: `readObject` (pure virtual in the header) opens one
blob for sequential reading; fully reading it yields the blob's bytes.  The
`read_hint` and `file_size` arguments only size internal buffers and never
alter the returned content, so they are not modelled. -/
def readObject (st : Store) (object : StoredObject) : Option ByteSeq :=
  Store.lookup st object.relative_path

/-- Modelled from the spec: `readObjects` (pure virtual in the header) presents
an ordered sequence of objects as one logical stream, the byte-for-byte
concatenation of the objects in listed order. -/
def readObjects (st : Store) : StoredObjects → Option ByteSeq
  | [] => some []
  | object :: rest =>
    match readObject st object, readObjects st rest with
    | some d, some ds => some (d ++ ds)
    | _, _ => none

/-- Modelled from the spec: `writeObject` (pure virtual in the header) opens a
blob for sequential writing; `Rewrite` replaces the blob with the written
bytes, `Append` is rejected with InvalidArgument on a backend lacking append
support and otherwise extends the blob. -/
def writeObject (supports_append : Bool) (st : Store) (object : StoredObject)
    (mode : WriteMode) (data : ByteSeq) : Except Err Store :=
  match mode with
  | WriteMode.Rewrite => Except.ok (Store.write st object.relative_path data)
  | WriteMode.Append =>
    if supports_append then
      Except.ok (Store.write st object.relative_path
        ((Store.lookup st object.relative_path).getD [] ++ data))
    else
      Except.error Err.InvalidArgument

/-- Modelled from the spec: `removeObject` (pure virtual in the header; the
header says "Throws exception if object doesn't exists"): single-object delete
that fails with NotFound when the object is absent. -/
def removeObject (st : Store) (object : StoredObject) : Except Err Store :=
  match Store.lookup st object.relative_path with
  | some _ => Except.ok (Store.erase st object.relative_path)
  | none => Except.error Err.NotFound

/-- Modelled from the spec: `removeObjectIfExists` (pure virtual in the header)
treats absence as a successful no-op. -/
def removeObjectIfExists (st : Store) (object : StoredObject) : Except Err Store :=
  Except.ok (Store.erase st object.relative_path)

/-- Modelled from the spec (§7): the sole built-in error translation, used by
the IfExists variants, converting NotFound into a successful no-op on state
`st` and passing every other outcome through unmodified. -/
def notFoundToSuccess (st : Store) (r : Except Err Store) : Except Err Store :=
  match r with
  | Except.error Err.NotFound => Except.ok st
  | r => r

/-- Modelled from the spec: batch removal processes the members in listed
order, best-effort; an absent member is recorded as failed (for the strict
variant) while every present member is removed, with no rollback of the
members already removed.  Returns the resulting state and the relative paths
of the failed members. -/
def removeObjectsGo (st : Store) : StoredObjects → Store × List String
  | [] => (st, [])
  | object :: rest =>
    match Store.lookup st object.relative_path with
    | some _ => removeObjectsGo (Store.erase st object.relative_path) rest
    | none =>
      let r := removeObjectsGo st rest
      (r.1, object.relative_path :: r.2)

/-- Modelled from the spec: `removeObjects` (pure virtual in the header):
best-effort batch delete; when some members fail the error is a
PartialBatchFailure carrying exactly the failed members, never a bare
failure. -/
def removeObjects (st : Store) (objects : StoredObjects) : Except Err Store :=
  let r := removeObjectsGo st objects
  if r.2.isEmpty then Except.ok r.1
  else Except.error (Err.PartialBatchFailure r.2)

/-- Modelled from the spec: `removeObjectsIfExist` (pure virtual in the
header): batch delete treating absence of any member as a successful no-op
for that member. -/
def removeObjectsIfExist (st : Store) (objects : StoredObjects) : Except Err Store :=
  Except.ok (removeObjectsGo st objects).1

/-- Modelled from the spec: the sequential writer returned by `writeObject`:
a destination path, the bytes written so far, and whether the writer was
finalized (only a finalized writer publishes its bytes). -/
structure WriteBuffer where
  dest_path : String
  buf : ByteSeq
  finalized : Bool
  deriving DecidableEq, Repr

/-- Write one chunk to the sequential writer. -/
def writeChunk (w : WriteBuffer) (chunk : ByteSeq) : WriteBuffer :=
  ⟨w.dest_path, w.buf ++ chunk, w.finalized⟩

/-- Finalize the sequential writer. -/
def finalizeWrite (w : WriteBuffer) : WriteBuffer :=
  ⟨w.dest_path, w.buf, true⟩

/-- Modelled from the spec: commit a writer to the backend; an unfinalized
writer leaves the backend state untouched (the destination never becomes
visible), a finalized one publishes its bytes under its destination path. -/
def commitWrite (st : Store) (w : WriteBuffer) : Store :=
  if w.finalized then Store.write st w.dest_path w.buf else st

/-- Modelled from the spec (§4.3): the streaming loop of the generic
cross-backend copy: repeatedly read a bounded chunk of at most `c` bytes from
the source and write it to the destination writer until the source is
exhausted. -/
def copyChunks (c : Nat) (src : ByteSeq) (w : WriteBuffer) : WriteBuffer :=
  if h : c = 0 ∨ src = [] then w
  else copyChunks c (src.drop c) (writeChunk w (src.take c))
termination_by src.length
decreasing_by
  push_neg at h
  obtain ⟨h1, h2⟩ := h
  have h3 : 0 < src.length := List.length_pos.mpr h2
  simp only [List.length_drop]
  omega

/-- Modelled from the spec: the default `copyObjectToAnotherObjectStorage`
(declared in the header, defined out of line): read `object_from` via the
source storage's `readObject`, stream chunk by chunk into a fresh writer
obtained from the destination storage's `writeObject`, and finalize the
destination writer only after the source is exhausted.  The source state is
returned unmodified alongside the new destination state. -/
def copyObjectToAnotherObjectStorage (c : Nat) (object_from object_to : StoredObject)
    (st_from st_to : Store) : Except Err (Store × Store) :=
  match readObject st_from object_from with
  | none => Except.error Err.NotFound
  | some data =>
    let w := copyChunks c data ⟨object_to.relative_path, [], false⟩
    Except.ok (st_from, commitWrite st_to (finalizeWrite w))

/-- All blobs of the backend whose relative path starts with `path`, as
listing entries, in backend enumeration order. -/
def matchingEntries (st : Store) (path : String) : RelativePathsWithSize :=
  (st.entries.map (fun kv => RelativePathWithSize.mk kv.1 kv.2.length)).filter
    (fun e => e.relative_path.startsWith path)

/-- Modelled from the spec: the page loop behind `findAllFiles`: fetch
backend-level pages of `list_object_keys_size` entries from the pending
matches and accumulate them into `acc`; when `max_keys` is positive, stop as
soon as `max_keys` entries were collected and return no more than `max_keys`
of them. -/
def listPages (list_object_keys_size : Nat) (max_keys : Int)
    (pending acc : RelativePathsWithSize) : RelativePathsWithSize :=
  if h : list_object_keys_size = 0 ∨ pending = [] then
    if 0 < max_keys then acc.take max_keys.toNat else acc
  else
    if 0 < max_keys ∧ max_keys.toNat ≤ (acc ++ pending.take list_object_keys_size).length then
      (acc ++ pending.take list_object_keys_size).take max_keys.toNat
    else
      listPages list_object_keys_size max_keys (pending.drop list_object_keys_size)
        (acc ++ pending.take list_object_keys_size)
termination_by pending.length
decreasing_by
  push_neg at h
  obtain ⟨h1, h2⟩ := h
  have h3 : 0 < pending.length := List.length_pos.mpr h2
  simp only [List.length_drop]
  omega

/-- Modelled from the spec: `findAllFiles(path, children, max_keys)` (declared
in the header, defined out of line): enumerate every blob under `path`, page
by page of `list_object_keys_size` entries; a positive `max_keys` caps the
number of returned entries, otherwise all matching entries are returned. -/
def findAllFiles (list_object_keys_size : Nat) (st : Store) (path : String)
    (max_keys : Int) : RelativePathsWithSize :=
  listPages list_object_keys_size max_keys (matchingEntries st path) []

/-- The virtual-dispatch surface of one `IObjectStorage` backend for the
methods the header gives inline bodies to: an `Option` field holds a
backend's override when present (`none` means the backend inherits the base
class body), while `isRemote_impl` has no default in the header (`isRemote`
is pure virtual) and must be stated by every backend. -/
structure IObjectStorage where
  isRemote_impl : Bool
  supportsCache_ov : Option Bool
  isReadOnly_ov : Option Bool
  isWriteOnce_ov : Option Bool
  supportParallelWrite_ov : Option Bool
  getUniqueId_ov : Option (String → String)
  adjustReadSettings_ov : Option (ReadSettings → String → ReadSettings)
  adjustWriteSettings_ov : Option (WriteSettings → String → WriteSettings)

/-- `virtual bool isRemote() const = 0;` — pure virtual, every backend states it. -/
def IObjectStorage.isRemote (b : IObjectStorage) : Bool :=
  b.isRemote_impl

/-- `virtual bool supportsCache() const { return false; }` under virtual dispatch. -/
def IObjectStorage.supportsCache (b : IObjectStorage) : Bool :=
  b.supportsCache_ov.getD false

/-- `virtual bool isReadOnly() const { return false; }` under virtual dispatch. -/
def IObjectStorage.isReadOnly (b : IObjectStorage) : Bool :=
  b.isReadOnly_ov.getD false

/-- `virtual bool isWriteOnce() const { return false; }` under virtual dispatch. -/
def IObjectStorage.isWriteOnce (b : IObjectStorage) : Bool :=
  b.isWriteOnce_ov.getD false

/-- `virtual bool supportParallelWrite() const { return false; }` under virtual dispatch. -/
def IObjectStorage.supportParallelWrite (b : IObjectStorage) : Bool :=
  b.supportParallelWrite_ov.getD false

/-- `virtual std::string getUniqueId(const std::string & path) const { return path; }`
under virtual dispatch. -/
def IObjectStorage.getUniqueId (b : IObjectStorage) (path : String) : String :=
  match b.getUniqueId_ov with
  | some f => f path
  | none => path

/-- The `ReadSettings` overload of `getAdjustedSettingsFromMetadataFile`,
whose base-class body is `{ return settings; }`, under virtual dispatch. -/
def IObjectStorage.getAdjustedReadSettingsFromMetadataFile (b : IObjectStorage)
    (settings : ReadSettings) (path : String) : ReadSettings :=
  match b.adjustReadSettings_ov with
  | some f => f settings path
  | none => settings

/-- The `WriteSettings` overload of `getAdjustedSettingsFromMetadataFile`,
whose base-class body is `{ return settings; }`, under virtual dispatch. -/
def IObjectStorage.getAdjustedWriteSettingsFromMetadataFile (b : IObjectStorage)
    (settings : WriteSettings) (path : String) : WriteSettings :=
  match b.adjustWriteSettings_ov with
  | some f => f settings path
  | none => settings

/-- Whether a virtual method of the interface is pure virtual (`= 0`, the
backend must implement it itself) or comes with a default implementation
(an inline body or an out-of-line definition). -/
inductive MethodKind where
  | pureVirtual
  | defaulted
  deriving DecidableEq, BEq, Repr

/-- The virtual methods of `class IObjectStorage` transcribed from the header
in declaration order, each tagged pure virtual (`= 0`) or defaulted (declared
without `= 0`, or given an inline body).  The two `getAdjustedSettingsFromMetadataFile`
and the two `patchSettings` overloads are listed with Read/Write suffixes. -/
def virtualMethods : List (String × MethodKind) :=
  [("getDataSourceDescription", MethodKind.pureVirtual),
   ("getName", MethodKind.pureVirtual),
   ("exists", MethodKind.pureVirtual),
   ("findAllFiles", MethodKind.defaulted),
   ("getDirectoryContents", MethodKind.defaulted),
   ("getObjectMetadata", MethodKind.pureVirtual),
   ("readObject", MethodKind.pureVirtual),
   ("readObjects", MethodKind.pureVirtual),
   ("writeObject", MethodKind.pureVirtual),
   ("isRemote", MethodKind.pureVirtual),
   ("removeObject", MethodKind.pureVirtual),
   ("removeObjects", MethodKind.pureVirtual),
   ("removeObjectIfExists", MethodKind.pureVirtual),
   ("removeObjectsIfExist", MethodKind.pureVirtual),
   ("copyObject", MethodKind.pureVirtual),
   ("copyObjectToAnotherObjectStorage", MethodKind.defaulted),
   ("getCacheName", MethodKind.defaulted),
   ("shutdown", MethodKind.pureVirtual),
   ("startup", MethodKind.pureVirtual),
   ("applyNewSettings", MethodKind.pureVirtual),
   ("getObjectsNamespace", MethodKind.pureVirtual),
   ("cloneObjectStorage", MethodKind.pureVirtual),
   ("generateBlobNameForPath", MethodKind.defaulted),
   ("getUniqueId", MethodKind.defaulted),
   ("removeCacheIfExists", MethodKind.defaulted),
   ("supportsCache", MethodKind.defaulted),
   ("isReadOnly", MethodKind.defaulted),
   ("isWriteOnce", MethodKind.defaulted),
   ("supportParallelWrite", MethodKind.defaulted),
   ("getAdjustedSettingsFromMetadataFileRead", MethodKind.defaulted),
   ("getAdjustedSettingsFromMetadataFileWrite", MethodKind.defaulted),
   ("patchSettingsRead", MethodKind.defaulted),
   ("patchSettingsWrite", MethodKind.defaulted)]

/-- The methods every backend must itself implement: the pure virtual ones. -/
def pureVirtualMethods : List String :=
  (virtualMethods.filter (fun m => m.2 == MethodKind.pureVirtual)).map (fun m => m.1)

/-- The methods a backend inherits when it does not override them. -/
def defaultedMethods : List String :=
  (virtualMethods.filter (fun m => m.2 == MethodKind.defaulted)).map (fun m => m.1)

/-- The mandatory primitive set claimed by the design notes: exists, read,
write, remove, list and metadata, spelt out as the header's method names. -/
def claimedMandatoryMethods : List String :=
  ["exists",
   "readObject", "readObjects",
   "writeObject",
   "removeObject", "removeObjects", "removeObjectIfExists", "removeObjectsIfExist",
   "findAllFiles", "getDirectoryContents",
   "getObjectMetadata"]

/-- The shared/default implementations the design notes claim are layered on
top of the mandatory core: the generic cross-backend copy, the namespace
accessor and the unique-id accessor. -/
def claimedDefaultedMethods : List String :=
  ["copyObjectToAnotherObjectStorage", "getObjectsNamespace", "getUniqueId"]

theorem lookup_filter_self (p : String) (l : List (String × ByteSeq)) :
    List.lookup p (l.filter (fun kv => kv.1 != p)) = none := by
  induction l with
  | nil => rfl
  | cons kv t ih =>
    by_cases h : kv.1 = p
    · simp [List.filter_cons, h, ih]
    · have h2 : (p == kv.1) = false := by
        simp [Ne.symm h]
      simp [List.filter_cons, h, List.lookup, h2, ih]

theorem lookup_filter_other (p q : String) (hq : q ≠ p) (l : List (String × ByteSeq)) :
    List.lookup q (l.filter (fun kv => kv.1 != p)) = List.lookup q l := by
  induction l with
  | nil => rfl
  | cons kv t ih =>
    by_cases h : kv.1 = p
    · have h2 : (q == p) = false := by
        simp [hq]
      simp [List.filter_cons, h, List.lookup, h2, ih]
    · by_cases h3 : q = kv.1
      · simp [List.filter_cons, h, List.lookup, h3]
      · have h4 : (q == kv.1) = false := by
          simp [h3]
        simp [List.filter_cons, h, List.lookup, h4, ih]

theorem Store.lookup_erase_self (st : Store) (p : String) :
    Store.lookup (Store.erase st p) p = none :=
  lookup_filter_self p st.entries

theorem Store.lookup_erase_of_ne (st : Store) (p q : String) (hq : q ≠ p) :
    Store.lookup (Store.erase st p) q = Store.lookup st q :=
  lookup_filter_other p q hq st.entries

theorem Store.lookup_write_self (st : Store) (p : String) (d : ByteSeq) :
    Store.lookup (Store.write st p d) p = some d := by
  simp [Store.lookup, Store.write, List.lookup]

theorem Store.erase_of_lookup_none (st : Store) (p : String)
    (h : Store.lookup st p = none) : Store.erase st p = st := by
  obtain ⟨l⟩ := st
  simp only [Store.erase, Store.mk.injEq]
  induction l with
  | nil => rfl
  | cons kv t ih =>
    have h2 : (p == kv.1) = false ∧ List.lookup p t = none := by
      by_cases h3 : p = kv.1
      · simp [Store.lookup, List.lookup, h3] at h
      · have h4 : (p == kv.1) = false := by
          simp [h3]
        refine ⟨h4, ?_⟩
        simpa [Store.lookup, List.lookup, h4] using h
    have h5 : (kv.1 != p) = true := by
      rcases h2 with ⟨h6, -⟩
      simp only [bne_iff_ne, ne_eq]
      intro h7
      simp [h7] at h6
    rw [List.filter_cons, h5]
    have h8 : Store.lookup ⟨t⟩ p = none := h2.2
    rw [ih h8]
    simp

theorem copyChunks_spec (c : Nat) (hc : c ≠ 0) (src : ByteSeq) (w : WriteBuffer) :
    copyChunks c src w = ⟨w.dest_path, w.buf ++ src, w.finalized⟩ := by
  induction src, w using copyChunks.induct c with
  | case1 src w h =>
    rcases h with h | h
    · exact absurd h hc
    · simp [copyChunks, h]
  | case2 src w h ih =>
    rw [copyChunks, dif_neg h, ih]
    simp [writeChunk, List.append_assoc, List.take_append_drop]

theorem listPages_length_le (ps : Nat) (N : Int) (hN : 0 < N)
    (pending acc : RelativePathsWithSize) :
    (listPages ps N pending acc).length ≤ N.toNat := by
  induction pending, acc using listPages.induct ps N with
  | case1 pending acc h h2 =>
    rw [listPages, dif_pos h, if_pos h2]
    exact List.length_take_le _ _
  | case2 pending acc h h2 =>
    exact absurd hN h2
  | case3 pending acc h h2 =>
    rw [listPages, dif_neg h, if_pos h2]
    exact List.length_take_le _ _
  | case4 pending acc h h2 ih =>
    rw [listPages, dif_neg h, if_neg h2]
    exact ih

theorem listPages_no_cap (ps : Nat) (hps : ps ≠ 0)
    (pending acc : RelativePathsWithSize) :
    listPages ps 0 pending acc = acc ++ pending := by
  induction pending, acc using listPages.induct ps 0 with
  | case1 pending acc h h2 =>
    exact absurd h2 (lt_irrefl 0)
  | case2 pending acc h h2 =>
    rcases h with h | h
    · exact absurd h hps
    · rw [listPages, dif_pos (Or.inr h), if_neg h2, h, List.append_nil]
  | case3 pending acc h h2 =>
    exact absurd h2.1 (lt_irrefl 0)
  | case4 pending acc h h2 ih =>
    rw [listPages, dif_neg h, if_neg h2, ih, List.append_assoc, List.take_append_drop]

theorem removeObjectsGo_lookup_none (st : Store) (objs : StoredObjects) (p : String)
    (h : Store.lookup st p = none) :
    Store.lookup (removeObjectsGo st objs).1 p = none := by
  induction objs generalizing st with
  | nil => exact h
  | cons a t ih =>
    cases hl : Store.lookup st a.relative_path with
    | some d =>
      rw [removeObjectsGo]
      simp only [hl]
      refine ih (Store.erase st a.relative_path) ?_
      by_cases hp : p = a.relative_path
      · rw [hp]
        exact Store.lookup_erase_self st a.relative_path
      · rw [Store.lookup_erase_of_ne st a.relative_path p hp]
        exact h
    | none =>
      rw [removeObjectsGo]
      simp only [hl]
      exact ih st h

theorem removeObjectsGo_member_removed (st : Store) (objs : StoredObjects) :
    ∀ o ∈ objs, Store.lookup (removeObjectsGo st objs).1 o.relative_path = none := by
  induction objs generalizing st with
  | nil =>
    intro o ho
    exact absurd ho (List.not_mem_nil o)
  | cons a t ih =>
    intro o ho
    cases hl : Store.lookup st a.relative_path with
    | some d =>
      rw [removeObjectsGo]
      simp only [hl]
      rcases List.mem_cons.mp ho with ho1 | ho2
      · rw [ho1]
        exact removeObjectsGo_lookup_none (Store.erase st a.relative_path) t a.relative_path
          (Store.lookup_erase_self st a.relative_path)
      · exact ih (Store.erase st a.relative_path) o ho2
    | none =>
      rw [removeObjectsGo]
      simp only [hl]
      rcases List.mem_cons.mp ho with ho1 | ho2
      · rw [ho1]
        exact removeObjectsGo_lookup_none st t a.relative_path hl
      · exact ih st o ho2

theorem removeObjectsGo_nonmember_preserved (st : Store) (objs : StoredObjects) (p : String)
    (h : p ∉ objs.map (fun o => o.relative_path)) :
    Store.lookup (removeObjectsGo st objs).1 p = Store.lookup st p := by
  induction objs generalizing st with
  | nil => rfl
  | cons a t ih =>
    have hpa : p ≠ a.relative_path := by
      intro he
      exact h (by simp [he])
    have hpt : p ∉ t.map (fun o => o.relative_path) := by
      intro he
      exact h (by simp [he])
    cases hl : Store.lookup st a.relative_path with
    | some d =>
      rw [removeObjectsGo]
      simp only [hl]
      rw [ih (Store.erase st a.relative_path) hpt]
      exact Store.lookup_erase_of_ne st a.relative_path p hpa
    | none =>
      rw [removeObjectsGo]
      simp only [hl]
      exact ih st hpt

theorem removeObjectsGo_failed_exact (st : Store) (objs : StoredObjects)
    (hnd : (objs.map (fun o => o.relative_path)).Nodup) :
    (removeObjectsGo st objs).2
      = (objs.filter (fun o => (Store.lookup st o.relative_path).isNone)).map
          (fun o => o.relative_path) := by
  induction objs generalizing st with
  | nil => rfl
  | cons a t ih =>
    have hnd2 : a.relative_path ∉ t.map (fun o => o.relative_path) ∧
        (t.map (fun o => o.relative_path)).Nodup := by
      simpa using hnd
    cases hl : Store.lookup st a.relative_path with
    | some d =>
      rw [removeObjectsGo]
      simp only [hl]
      rw [ih (Store.erase st a.relative_path) hnd2.2]
      have hfc : ∀ o ∈ t,
          ((Store.lookup (Store.erase st a.relative_path) o.relative_path).isNone)
            = ((Store.lookup st o.relative_path).isNone) := by
        intro o ho
        have hne : o.relative_path ≠ a.relative_path := by
          intro he
          exact hnd2.1 (by simp [← he]; exact ⟨o, ho, rfl⟩)
        rw [Store.lookup_erase_of_ne st a.relative_path o.relative_path hne]
      rw [List.filter_congr hfc]
      simp [List.filter_cons, hl]
    | none =>
      rw [removeObjectsGo]
      simp only [hl]
      rw [ih st hnd2.2]
      simp [List.filter_cons, hl]

/-- C1: for every byte sequence and every object, writing the sequence to the
object via `writeObject` with mode `Rewrite` and then fully reading the object
via `readObject` yields exactly the written bytes. -/
theorem writeObject_rewrite_readObject_roundtrip
    (supports_append : Bool) (st : Store) (o : StoredObject) (data : ByteSeq)
    (st2 : Store)
    (h : writeObject supports_append st o WriteMode.Rewrite data = Except.ok st2) :
    readObject st2 o = some data := by
  have h2 : Store.write st o.relative_path data = st2 := by
    simpa [writeObject] using h
  rw [← h2]
  exact Store.lookup_write_self st o.relative_path data

/-- Witness for C1 at a concrete store, object and byte sequence. -/
theorem writeObject_rewrite_readObject_roundtrip_witness :
    readObject (Store.write ⟨[]⟩ ("a") ([1, 2, 3])) ⟨("a"), none⟩ = some [1, 2, 3] :=
  writeObject_rewrite_readObject_roundtrip true ⟨[]⟩ ⟨("a"), none⟩ ([1, 2, 3])
    (Store.write ⟨[]⟩ ("a") ([1, 2, 3])) rfl

/-- C2: the default `copyObjectToAnotherObjectStorage` reads the source object,
streams it chunk by chunk into the destination writer, finalizes the writer
only after the source is exhausted (the loop itself never finalizes), and
produces a destination object byte-identical to the source; the source state
is returned unmodified, so the source object is never modified or removed. -/
theorem copyObjectToAnotherObjectStorage_spec
    (c : Nat) (A B : StoredObject) (st1 st2 : Store) (D : ByteSeq)
    (hc : c ≠ 0) (h : readObject st1 A = some D) :
    copyObjectToAnotherObjectStorage c A B st1 st2
        = Except.ok (st1, Store.write st2 B.relative_path D)
      ∧ readObject (Store.write st2 B.relative_path D) B = some D
      ∧ (copyChunks c D ⟨B.relative_path, [], false⟩).finalized = false := by
  have hchunks := copyChunks_spec c hc D ⟨B.relative_path, [], false⟩
  refine ⟨?_, ?_, ?_⟩
  · simp [copyObjectToAnotherObjectStorage, h, hchunks, finalizeWrite, commitWrite]
  · exact Store.lookup_write_self st2 B.relative_path D
  · rw [hchunks]

/-- Witness for C2 at a concrete pair of stores and a two-byte object copied
with chunk size one. -/
theorem copyObjectToAnotherObjectStorage_spec_witness :
    copyObjectToAnotherObjectStorage 1 ⟨("a"), none⟩ ⟨("b"), none⟩ ⟨[(("a"), [9, 8])]⟩ ⟨[]⟩
        = Except.ok (⟨[(("a"), [9, 8])]⟩, Store.write ⟨[]⟩ ("b") ([9, 8]))
      ∧ readObject (Store.write ⟨[]⟩ ("b") ([9, 8])) ⟨("b"), none⟩ = some [9, 8]
      ∧ (copyChunks 1 [9, 8] ⟨("b"), [], false⟩).finalized = false :=
  copyObjectToAnotherObjectStorage_spec 1 ⟨("a"), none⟩ ⟨("b"), none⟩
    ⟨[(("a"), [9, 8])]⟩ ⟨[]⟩ [9, 8] (by decide) (by decide)

/-- C3: `removeObjectIfExists` always succeeds and erases the object (a no-op
on an absent object), `removeObject` fails with NotFound exactly when the
object is absent and removes it when present, and the IfExists variant is
precisely `removeObject` with NotFound translated into success. -/
theorem removeObject_vs_removeObjectIfExists (st : Store) (o : StoredObject) :
    removeObjectIfExists st o = Except.ok (Store.erase st o.relative_path)
    ∧ (Store.lookup st o.relative_path = none →
        removeObject st o = Except.error Err.NotFound
        ∧ removeObjectIfExists st o = Except.ok st)
    ∧ (∀ d, Store.lookup st o.relative_path = some d →
        removeObject st o = Except.ok (Store.erase st o.relative_path)
        ∧ Store.lookup (Store.erase st o.relative_path) o.relative_path = none)
    ∧ removeObjectIfExists st o = notFoundToSuccess st (removeObject st o) := by
  refine ⟨rfl, ?_, ?_, ?_⟩
  · intro h
    refine ⟨by simp [removeObject, h], ?_⟩
    rw [removeObjectIfExists, Store.erase_of_lookup_none st o.relative_path h]
  · intro d hd
    exact ⟨by simp [removeObject, hd], Store.lookup_erase_self st o.relative_path⟩
  · cases hl : Store.lookup st o.relative_path with
    | some d => simp [removeObject, removeObjectIfExists, notFoundToSuccess, hl]
    | none =>
      simp [removeObject, removeObjectIfExists, notFoundToSuccess, hl,
        Store.erase_of_lookup_none st o.relative_path hl]

/-- Witness for C3: on a concrete store holding only blob a, removing the
absent object b fails with NotFound while the IfExists variant succeeds with
the store unchanged, and removing the present object a removes it. -/
theorem removeObject_vs_removeObjectIfExists_witness :
    (removeObject ⟨[(("a"), [1])]⟩ ⟨("b"), none⟩ = Except.error Err.NotFound
      ∧ removeObjectIfExists ⟨[(("a"), [1])]⟩ ⟨("b"), none⟩ = Except.ok ⟨[(("a"), [1])]⟩)
    ∧ (removeObject ⟨[(("a"), [1])]⟩ ⟨("a"), none⟩
        = Except.ok (Store.erase ⟨[(("a"), [1])]⟩ ("a"))
      ∧ Store.lookup (Store.erase ⟨[(("a"), [1])]⟩ ("a")) ("a") = none) :=
  ⟨(removeObject_vs_removeObjectIfExists ⟨[(("a"), [1])]⟩ ⟨("b"), none⟩).2.1 (by decide),
   (removeObject_vs_removeObjectIfExists ⟨[(("a"), [1])]⟩ ⟨("a"), none⟩).2.2.1 [1] (by decide)⟩

/-- C4: when each listed object has some content, `readObjects` returns
exactly the concatenation of the contents in listed order, whatever the
individual sizes are. -/
theorem readObjects_concatenation (st : Store) (objs : StoredObjects)
    (contents : List ByteSeq)
    (h : List.Forall₂ (fun o d => readObject st o = some d) objs contents) :
    readObjects st objs = some contents.flatten := by
  induction h with
  | nil => rfl
  | cons h1 h2 ih => simp [readObjects, h1, ih]

/-- Witness for C4 on two concrete objects of different sizes. -/
theorem readObjects_concatenation_witness :
    readObjects ⟨[(("a"), [1]), (("b"), [2, 3])]⟩ [⟨("a"), none⟩, ⟨("b"), none⟩]
      = some [1, 2, 3] :=
  readObjects_concatenation ⟨[(("a"), [1]), (("b"), [2, 3])]⟩
    [⟨("a"), none⟩, ⟨("b"), none⟩] [[1], [2, 3]]
    (List.Forall₂.cons (by decide) (List.Forall₂.cons (by decide) List.Forall₂.nil))

/-- C5: with a positive `max_keys` bound, `findAllFiles` returns at most that
many entries; with `max_keys` zero it returns every blob under the given
path, regardless of the backend-level page size used. -/
theorem findAllFiles_max_keys_cap (ps : Nat) (st : Store) (path : String) (N : Int)
    (hps : ps ≠ 0) :
    (0 < N → (findAllFiles ps st path N).length ≤ N.toNat)
    ∧ findAllFiles ps st path 0 = matchingEntries st path := by
  constructor
  · intro hN
    exact listPages_length_le ps N hN (matchingEntries st path) []
  · rw [findAllFiles, listPages_no_cap ps hps (matchingEntries st path) [],
      List.nil_append]

/-- Witness for C5 at page size one, a three-blob store and cap one. -/
theorem findAllFiles_max_keys_cap_witness :
    ((0 : Int) < 1 →
      (findAllFiles 1 ⟨[(("a/x"), [1]), (("a/y"), [2, 2]), (("b/z"), [3])]⟩ ("a/") 1).length
        ≤ (1 : Int).toNat)
    ∧ findAllFiles 1 ⟨[(("a/x"), [1]), (("a/y"), [2, 2]), (("b/z"), [3])]⟩ ("a/") 0
        = matchingEntries ⟨[(("a/x"), [1]), (("a/y"), [2, 2]), (("b/z"), [3])]⟩ ("a/") :=
  findAllFiles_max_keys_cap 1 ⟨[(("a/x"), [1]), (("a/y"), [2, 2]), (("b/z"), [3])]⟩
    ("a/") 1 (by decide)

/-- C6: under virtual dispatch, each of supportsCache, isReadOnly, isWriteOnce
and supportParallelWrite yields false for a backend that does not override it,
while isRemote carries no default: the dispatched value is exactly whatever
the backend states, and both values are realizable with every defaulted slot
left untouched. -/
theorem capability_flag_defaults :
    ∀ (b : IObjectStorage),
      (b.supportsCache_ov = none → IObjectStorage.supportsCache b = false)
      ∧ (b.isReadOnly_ov = none → IObjectStorage.isReadOnly b = false)
      ∧ (b.isWriteOnce_ov = none → IObjectStorage.isWriteOnce b = false)
      ∧ (b.supportParallelWrite_ov = none → IObjectStorage.supportParallelWrite b = false)
      ∧ IObjectStorage.isRemote b = b.isRemote_impl
      ∧ (∀ v : Bool,
          IObjectStorage.isRemote ⟨v, none, none, none, none, none, none, none⟩ = v) := by
  intro b
  refine ⟨?_, ?_, ?_, ?_, rfl, fun v => rfl⟩
  all_goals intro h
  · simp [IObjectStorage.supportsCache, h]
  · simp [IObjectStorage.isReadOnly, h]
  · simp [IObjectStorage.isWriteOnce, h]
  · simp [IObjectStorage.supportParallelWrite, h]

/-- Witness for C6 at a concrete remote backend with no overrides. -/
theorem capability_flag_defaults_witness :
    IObjectStorage.supportsCache ⟨true, none, none, none, none, none, none, none⟩ = false
    ∧ IObjectStorage.isReadOnly ⟨true, none, none, none, none, none, none, none⟩ = false
    ∧ IObjectStorage.isWriteOnce ⟨true, none, none, none, none, none, none, none⟩ = false
    ∧ IObjectStorage.supportParallelWrite
        ⟨true, none, none, none, none, none, none, none⟩ = false
    ∧ IObjectStorage.isRemote ⟨true, none, none, none, none, none, none, none⟩ = true :=
  ⟨(capability_flag_defaults ⟨true, none, none, none, none, none, none, none⟩).1 rfl,
   (capability_flag_defaults ⟨true, none, none, none, none, none, none, none⟩).2.1 rfl,
   (capability_flag_defaults ⟨true, none, none, none, none, none, none, none⟩).2.2.1 rfl,
   (capability_flag_defaults ⟨true, none, none, none, none, none, none, none⟩).2.2.2.1 rfl,
   (capability_flag_defaults ⟨true, none, none, none, none, none, none, none⟩).2.2.2.2.1⟩

/-- C7: batch removal is best-effort with precise failure reporting: the
failed members are exactly the absent ones (for distinct member paths), a
failing batch reports the PartialBatchFailure error carrying that failed
subset and nothing more opaque, every present member stays removed with no
rollback, objects outside the batch are untouched, and the IfExist variant
succeeds with the same resulting state. -/
theorem removeObjects_batch_semantics (st : Store) (objs : StoredObjects)
    (hnd : (objs.map (fun o => o.relative_path)).Nodup) :
    ((removeObjectsGo st objs).2
        = (objs.filter (fun o => (Store.lookup st o.relative_path).isNone)).map
            (fun o => o.relative_path))
    ∧ ((removeObjectsGo st objs).2 ≠ [] →
        removeObjects st objs
          = Except.error (Err.PartialBatchFailure (removeObjectsGo st objs).2))
    ∧ (∀ o ∈ objs, Store.lookup (removeObjectsGo st objs).1 o.relative_path = none)
    ∧ (∀ p, p ∉ objs.map (fun o => o.relative_path) →
        Store.lookup (removeObjectsGo st objs).1 p = Store.lookup st p)
    ∧ removeObjectsIfExist st objs = Except.ok (removeObjectsGo st objs).1 := by
  refine ⟨removeObjectsGo_failed_exact st objs hnd, ?_,
    removeObjectsGo_member_removed st objs,
    fun p hp => removeObjectsGo_nonmember_preserved st objs p hp, rfl⟩
  intro hne
  have h2 : (removeObjectsGo st objs).2.isEmpty = false := by
    cases hl : (removeObjectsGo st objs).2 with
    | nil => exact absurd hl hne
    | cons a t => rfl
  simp [removeObjects, h2]

/-- Witness for C7 on a concrete batch with one present and one absent member. -/
theorem removeObjects_batch_semantics_witness :
    removeObjects ⟨[(("a"), [1])]⟩ [⟨("a"), none⟩, ⟨("c"), none⟩]
      = Except.error (Err.PartialBatchFailure
          (removeObjectsGo ⟨[(("a"), [1])]⟩ [⟨("a"), none⟩, ⟨("c"), none⟩]).2) :=
  (removeObjects_batch_semantics ⟨[(("a"), [1])]⟩ [⟨("a"), none⟩, ⟨("c"), none⟩]
    (by decide)).2.1 (by decide)

/-- C8 counterexample: the claimed mandatory core (exists, read, write,
remove, list, metadata) is not the set of methods a backend must implement:
getObjectsNamespace is pure virtual though claimed defaulted, findAllFiles is
claimed mandatory though it has a default implementation, and copyObject is
pure virtual though outside the claimed core. -/
theorem mandatory_core_claim_counterexample :
    ("getObjectsNamespace" ∈ pureVirtualMethods
        ∧ "getObjectsNamespace" ∈ claimedDefaultedMethods)
    ∧ ("findAllFiles" ∈ claimedMandatoryMethods ∧ "findAllFiles" ∉ pureVirtualMethods)
    ∧ ("copyObject" ∈ pureVirtualMethods ∧ "copyObject" ∉ claimedMandatoryMethods)
    ∧ ¬ ((∀ m ∈ pureVirtualMethods, m ∈ claimedMandatoryMethods)
          ∧ (∀ m ∈ claimedMandatoryMethods, m ∈ pureVirtualMethods)
          ∧ (∀ m ∈ claimedDefaultedMethods, m ∈ defaultedMethods)) := by
  decide

/-- C8 amended: the methods every backend must itself implement are exactly
the eighteen pure virtual ones (including copyObject, lifecycle, settings,
namespace, clone, name and data-source description), while findAllFiles,
getDirectoryContents, the generic cross-backend copy, the unique-id default
and the capability-flag defaults are shared/default implementations. -/
theorem mandatory_core_actual :
    pureVirtualMethods
      = ["getDataSourceDescription", "getName", "exists", "getObjectMetadata",
         "readObject", "readObjects", "writeObject", "isRemote",
         "removeObject", "removeObjects", "removeObjectIfExists", "removeObjectsIfExist",
         "copyObject", "shutdown", "startup", "applyNewSettings",
         "getObjectsNamespace", "cloneObjectStorage"]
    ∧ defaultedMethods
      = ["findAllFiles", "getDirectoryContents", "copyObjectToAnotherObjectStorage",
         "getCacheName", "generateBlobNameForPath", "getUniqueId", "removeCacheIfExists",
         "supportsCache", "isReadOnly", "isWriteOnce", "supportParallelWrite",
         "getAdjustedSettingsFromMetadataFileRead", "getAdjustedSettingsFromMetadataFileWrite",
         "patchSettingsRead", "patchSettingsWrite"]
    ∧ "copyObjectToAnotherObjectStorage" ∈ defaultedMethods
    ∧ "getUniqueId" ∈ defaultedMethods
    ∧ "getObjectsNamespace" ∈ pureVirtualMethods := by
  decide

/-- C9: under virtual dispatch, `getUniqueId` of a backend that does not
override it returns the passed path unchanged. -/
theorem getUniqueId_default_is_identity (b : IObjectStorage) (path : String)
    (h : b.getUniqueId_ov = none) :
    IObjectStorage.getUniqueId b path = path := by
  simp [IObjectStorage.getUniqueId, h]

/-- Witness for C9 at a concrete backend and path. -/
theorem getUniqueId_default_is_identity_witness :
    IObjectStorage.getUniqueId ⟨true, none, none, none, none, none, none, none⟩ ("p/q")
      = "p/q" :=
  getUniqueId_default_is_identity ⟨true, none, none, none, none, none, none, none⟩
    ("p/q") rfl

/-- C10: under virtual dispatch, both overloads of
`getAdjustedSettingsFromMetadataFile` of a backend that does not override
them return the settings unchanged and ignore the path entirely. -/
theorem getAdjustedSettingsFromMetadataFile_default_is_identity
    (b : IObjectStorage)
    (hr : b.adjustReadSettings_ov = none) (hw : b.adjustWriteSettings_ov = none) :
    ∀ (rs : ReadSettings) (ws : WriteSettings) (p q : String),
      IObjectStorage.getAdjustedReadSettingsFromMetadataFile b rs p = rs
      ∧ IObjectStorage.getAdjustedWriteSettingsFromMetadataFile b ws p = ws
      ∧ IObjectStorage.getAdjustedReadSettingsFromMetadataFile b rs p
          = IObjectStorage.getAdjustedReadSettingsFromMetadataFile b rs q
      ∧ IObjectStorage.getAdjustedWriteSettingsFromMetadataFile b ws p
          = IObjectStorage.getAdjustedWriteSettingsFromMetadataFile b ws q := by
  intro rs ws p q
  simp [IObjectStorage.getAdjustedReadSettingsFromMetadataFile,
    IObjectStorage.getAdjustedWriteSettingsFromMetadataFile, hr, hw]

/-- Witness for C10 at a concrete backend, concrete settings and two paths. -/
theorem getAdjustedSettingsFromMetadataFile_default_is_identity_witness :
    IObjectStorage.getAdjustedReadSettingsFromMetadataFile
        ⟨true, none, none, none, none, none, none, none⟩ ⟨none, 4096, true⟩ ("x")
      = ⟨none, 4096, true⟩
    ∧ IObjectStorage.getAdjustedWriteSettingsFromMetadataFile
        ⟨true, none, none, none, none, none, none, none⟩ ⟨none, 4096⟩ ("x")
      = ⟨none, 4096⟩
    ∧ IObjectStorage.getAdjustedReadSettingsFromMetadataFile
        ⟨true, none, none, none, none, none, none, none⟩ ⟨none, 4096, true⟩ ("x")
      = IObjectStorage.getAdjustedReadSettingsFromMetadataFile
          ⟨true, none, none, none, none, none, none, none⟩ ⟨none, 4096, true⟩ ("y")
    ∧ IObjectStorage.getAdjustedWriteSettingsFromMetadataFile
        ⟨true, none, none, none, none, none, none, none⟩ ⟨none, 4096⟩ ("x")
      = IObjectStorage.getAdjustedWriteSettingsFromMetadataFile
          ⟨true, none, none, none, none, none, none, none⟩ ⟨none, 4096⟩ ("y") :=
  getAdjustedSettingsFromMetadataFile_default_is_identity
    ⟨true, none, none, none, none, none, none, none⟩ rfl rfl
    ⟨none, 4096, true⟩ ⟨none, 4096⟩ ("x") ("y")

end DB
